import Mathlib

/-!
Verification of the URL-shortener core (keygen.py, crud.py, main.py, config.py)
against its specification.

The randomness of `secrets.choice` is modelled as a draw function
`g : Nat → Fin 36` together with a position counter: the i-th call to
`choice(ascii_uppercase + digits)` returns the character of the 36-symbol
alphabet selected by `g i`.  A database `Session` is modelled as a `Store`
value threaded explicitly; SQLAlchemy's `query(...).filter(...).first()`
becomes `List.find?` over the records in table order, and attribute
assignment plus `commit` becomes an id-keyed functional update.
-/

/-- The 36-symbol alphabet `ascii_uppercase + digits` used by keygen.py. -/
def ALPHABET : String := "ABCDEFGHIJKLMNOPQRSTUVWXYZ0123456789"

/-- One call of `secrets.choice(ascii_uppercase + digits)`: the draw selects an
alphabet position. -/
def alphaChar (i : Fin 36) : Char := ALPHABET.toList.getD i.val 'A'

/-- keygen.create_random_key: a string of `length` characters drawn from the
alphabet, consuming draws `pos, pos+1, …`; returns the key and the next unused
draw position. -/
def create_random_key (g : Nat → Fin 36) (pos : Nat) (length : Nat) : String × Nat :=
  (String.mk ((List.range length).map (fun i => alphaChar (g (pos + i)))), pos + length)

/-- One row of the `urls` table (models.URL). -/
structure URLRecord where
  id : Nat
  target_url : String
  key : String
  secret_key : String
  clicks : Nat
  is_active : Bool
deriving DecidableEq

/-- The database: the `urls` table in insertion order plus the next
auto-assigned primary key. -/
structure Store where
  records : List URLRecord
  nextId : Nat
deriving DecidableEq

/-- schemas.URLBase: the request body of a create call. -/
structure URLBase where
  target_url : String
deriving DecidableEq

/-- schemas.URLInfo: a record together with the two non-persisted response
fields `url` and `admin_url`. -/
structure URLInfo where
  record : URLRecord
  url : String
  admin_url : String
deriving DecidableEq

/-- crud.get_db_url_by_key: first record whose `key` matches and which is
active. -/
def get_db_url_by_key (db : Store) (url_key : String) : Option URLRecord :=
  db.records.find? (fun r => r.key == url_key && r.is_active)

/-- crud.get_db_url_by_secret_key: first record whose `secret_key` matches and
which is active. -/
def get_db_url_by_secret_key (db : Store) (secret_key : String) : Option URLRecord :=
  db.records.find? (fun r => r.secret_key == secret_key && r.is_active)

/-- keygen.create_unique_random_key: draw a key, loop while an active record
already has it.  The source loop has no bound, so it is given fuel; `none`
models non-termination of the retry loop, never a returned value. -/
def create_unique_random_key (db : Store) (g : Nat → Fin 36) (pos fuel length : Nat) :
    Option (String × Nat) :=
  match fuel with
  | 0 => none
  | Nat.succ fuel =>
    let kp := create_random_key g pos length
    match get_db_url_by_key db kp.1 with
    | some _ => create_unique_random_key db g kp.2 fuel length
    | none => some kp

/-- Modelled from the spec: the persisted schema (models.py is not under src/)
has columns `id` (auto-assigned), `target_url`, `key` (unique), `secret_key`
(unique), `clicks` (default 0), `is_active` (default true); an insert that
violates a unique constraint fails (`StorageError`). -/
def insert_url (db : Store) (target_url key secret_key : String) :
    Option (Store × URLRecord) :=
  if db.records.any (fun r => r.key == key || r.secret_key == secret_key) then
    none
  else
    let row : URLRecord := ⟨db.nextId, target_url, key, secret_key, 0, true⟩
    some (⟨db.records ++ [row], db.nextId + 1⟩, row)

/-- crud.create_db_url: if the key is absent (`None` or empty — Python
truthiness), obtain one from create_unique_random_key; build
`secret_key = f'{key}_{create_random_key(length=8)}'`; insert and return the
persisted row.  `none` covers both an exhausted retry loop and a failed
insert. -/
def create_db_url (db : Store) (url : URLBase) (key : Option String)
    (g : Nat → Fin 36) (pos fuel : Nat) : Option (Store × URLRecord × Nat) :=
  match (match key with
         | some k => if k = "" then create_unique_random_key db g pos fuel 5 else some (k, pos)
         | none => create_unique_random_key db g pos fuel 5) with
  | none => none
  | some (k, pos1) =>
    let sp := create_random_key g pos1 8
    match insert_url db url.target_url k (k ++ "_" ++ sp.1) with
    | none => none
    | some (db2, row) => some (db2, row, sp.2)

/-- crud.update_db_clicks: `db_url.clicks += 1; db.commit()`. The commit writes
the mutated attributes back to the row with the same primary key. -/
def update_db_clicks (db : Store) (db_url : URLRecord) : Store × URLRecord :=
  let updated : URLRecord :=
    ⟨db_url.id, db_url.target_url, db_url.key, db_url.secret_key, db_url.clicks + 1,
     db_url.is_active⟩
  (⟨db.records.map (fun r => if r.id == db_url.id then updated else r), db.nextId⟩, updated)

/-- crud.deactivate_db_url_by_secret_key: look up by secret key; if found set
`is_active = False` and commit; return the now-inactive row, else `none`. -/
def deactivate_db_url_by_secret_key (db : Store) (secret_key : String) :
    Store × Option URLRecord :=
  match get_db_url_by_secret_key db secret_key with
  | none => (db, none)
  | some u =>
    let updated : URLRecord :=
      ⟨u.id, u.target_url, u.key, u.secret_key, u.clicks, false⟩
    (⟨db.records.map (fun r => if r.id == u.id then updated else r), db.nextId⟩, some updated)

/-- Handler outcome: 2xx payload, 400, 404 (carrying the argument passed to
`raise_not_found`, which the HTTP layer wraps in the fixed message text), or a
propagated server error (`StorageError` / unbounded retry loop). -/
inductive HResult (α : Type) where
  | ok (a : α)
  | badRequest (detail : String)
  | notFound (detail : String)
  | serverError
deriving DecidableEq

/-- The explicit-key collision check on main.py line 135:
`if key and crud.get_db_url_by_key(db, key)`. -/
def key_already_exists (db : Store) (key : Option String) : Bool :=
  match key with
  | some k => (k != "") && (get_db_url_by_key db k).isSome
  | none => false

/-- main.create_url.  `valid` models the external `validators.url` library,
`reachable` the `requests.get` network probe (False = ConnectionError);
both are external collaborators, out of scope per the spec.  On success the
handler sets `db_url.url = db_url.key` and `db_url.admin_url =
db_url.secret_key` (main.py lines 144-145). -/
def create_url (db : Store) (url : URLBase) (key : Option String)
    (valid reachable : String → Bool) (g : Nat → Fin 36) (pos fuel : Nat) :
    HResult URLInfo × Store :=
  if valid url.target_url = false then
    (HResult.badRequest "Your provided URL is not valid", db)
  else if key_already_exists db key then
    (HResult.badRequest "Key already exists in the database.", db)
  else if reachable url.target_url = false then
    (HResult.notFound url.target_url, db)
  else
    match create_db_url db url key g pos fuel with
    | none => (HResult.serverError, db)
    | some (db2, row, _) =>
      (HResult.ok ⟨row, row.key, row.secret_key⟩, db2)

/-- main.forward_to_target_url: look up the active record, record the click,
redirect to its target_url; 404 with `f'{base_url}/{key}'` otherwise. -/
def forward_to_target_url (base_url : String) (db : Store) (key : String) :
    HResult String × Store :=
  match get_db_url_by_key db key with
  | some db_url =>
    let s := update_db_clicks db db_url
    (HResult.ok db_url.target_url, s.1)
  | none => (HResult.notFound (base_url ++ "/" ++ key), db)

/-- main.peek_target_url: return the target_url of the active record without
touching it; 404 otherwise. -/
def peek_target_url (base_url : String) (db : Store) (key : String) :
    HResult String × Store :=
  match get_db_url_by_key db key with
  | some db_url => (HResult.ok db_url.target_url, db)
  | none => (HResult.notFound (base_url ++ "/" ++ key), db)

/-- The admin route path produced by `app.url_path_for('administration info',
secret_key=...)` for route `/admin/{secret_key}`. -/
def admin_route (secret_key : String) : String := "/admin/" ++ secret_key

/-- starlette `URL(base).replace(path=p)` for the host-only base URLs of
config.py: urlunsplit prepends a slash to a relative path. -/
def replace_path (base path : String) : String :=
  if path.toList.head? = some '/' then base ++ path else base ++ "/" ++ path

/-- main.get_admin_info: attach the derived `url` and `admin_url` fields,
substituting the configured base URL's path. -/
def get_admin_info (base_url : String) (db_url : URLRecord) : URLInfo :=
  ⟨db_url, replace_path base_url db_url.key,
   replace_path base_url (admin_route db_url.secret_key)⟩

/-- main.get_url_info (GET /admin/{secret_key}): admin info for the active
record, 404 (with empty detail argument) otherwise. -/
def get_url_info (base_url : String) (db : Store) (secret_key : String) :
    HResult URLInfo × Store :=
  match get_db_url_by_secret_key db secret_key with
  | some db_url => (HResult.ok (get_admin_info base_url db_url), db)
  | none => (HResult.notFound "", db)

/-- main.delete_url (DELETE /admin/{secret_key}): deactivate; the success
payload carries the target_url referenced by the confirmation message. -/
def delete_url (db : Store) (secret_key : String) : HResult String × Store :=
  let s := deactivate_db_url_by_secret_key db secret_key
  match s.2 with
  | some db_url => (HResult.ok db_url.target_url, s.1)
  | none => (HResult.notFound "", s.1)

/-- One API operation, for reasoning about arbitrary sequences of requests. -/
inductive Op where
  | createOp (url : URLBase) (key : Option String) (valid reachable : String → Bool)
      (g : Nat → Fin 36) (pos fuel : Nat)
  | forwardOp (base_url key : String)
  | peekOp (base_url key : String)
  | adminInfoOp (base_url secret_key : String)
  | deleteOp (secret_key : String)

/-- The store reached after one operation. -/
def applyOp (db : Store) : Op → Store
  | Op.createOp url key valid reachable g pos fuel =>
      (create_url db url key valid reachable g pos fuel).2
  | Op.forwardOp base key => (forward_to_target_url base db key).2
  | Op.peekOp base key => (peek_target_url base db key).2
  | Op.adminInfoOp base sk => (get_url_info base db sk).2
  | Op.deleteOp sk => (delete_url db sk).2

/-- The store reached after a sequence of operations. -/
def applyOps (db : Store) (ops : List Op) : Store := ops.foldl applyOp db

/-- Store well-formedness: rows are determined by their primary key, by their
`key` and by their `secret_key` (the unique columns), and every assigned id is
below the auto-increment counter.  Holds for every store reachable from an
empty table. -/
def WF (db : Store) : Prop :=
  (∀ x ∈ db.records, ∀ y ∈ db.records, x.id = y.id → x = y) ∧
  (∀ x ∈ db.records, ∀ y ∈ db.records, x.key = y.key → x = y) ∧
  (∀ x ∈ db.records, ∀ y ∈ db.records, x.secret_key = y.secret_key → x = y) ∧
  (∀ x ∈ db.records, x.id < db.nextId)

/-- Key `k` is dead: some row carries it and every row carrying it is
inactive. -/
def DeadKey (db : Store) (k : String) : Prop :=
  (∃ s ∈ db.records, s.key = k) ∧ ∀ s ∈ db.records, s.key = k → s.is_active = false

/-- Secret key `sk` is dead: some row carries it and every row carrying it is
inactive. -/
def DeadSecret (db : Store) (sk : String) : Prop :=
  (∃ s ∈ db.records, s.secret_key = sk) ∧
  ∀ s ∈ db.records, s.secret_key = sk → s.is_active = false

/-- `n` consecutive record_click calls, each on the record returned by the
previous one. -/
def clicksIter : Nat → Store → URLRecord → Store × URLRecord
  | 0, db, r => (db, r)
  | Nat.succ n, db, r =>
      clicksIter n (update_db_clicks db r).1 (update_db_clicks db r).2

/-- A concrete draw function: the i-th draw selects alphabet position
`i mod 36`, so the first five draws spell ABCDE.  Used by the concrete
evaluations below. -/
def gIdx : Nat → Fin 36 := fun n => ⟨n % 36, Nat.mod_lt n (by decide)⟩

/-- A validator / reachability probe that accepts everything. -/
def allT : String → Bool := fun _ => true

/-- The empty table. -/
def emptyStore : Store := ⟨[], 0⟩

/-- A store holding one inactive record whose key is the first key gIdx
draws. -/
def dbC1 : Store := ⟨[⟨0, "https://example.com", "ABCDE", "ABCDE_ZZZZZZZZ", 0, false⟩], 1⟩

/-- A store holding one active record whose key is the first key gIdx draws,
forcing the retry loop through one collision. -/
def db0C7 : Store := ⟨[⟨0, "https://example.com", "ABCDE", "ABCDE_ZZZZZZZZ", 3, true⟩], 1⟩

/-- A store holding one active record, for the deactivation scenario. -/
def db3 : Store := ⟨[⟨0, "https://example.com", "KEY01", "KEY01_AAAAAAAA", 2, true⟩], 1⟩

/-- One active record for the click / peek scenarios. -/
def rowC5 : URLRecord := ⟨0, "https://example.com", "ABCDE", "ABCDE_ZZZZZZZZ", 3, true⟩

/-- A store holding `rowC5`. -/
def dbC5 : Store := ⟨[rowC5], 1⟩

/-- The record of `db3` after deactivation. -/
def r3 : URLRecord := ⟨0, "https://example.com", "KEY01", "KEY01_AAAAAAAA", 2, false⟩

/-- The store of `db3` after deactivation. -/
def db3x : Store := ⟨[r3], 1⟩

/-- A concrete operation sequence run after a deactivation: an attempt to
re-create the same key, a redirect attempt, and a repeated delete. -/
def ops3 : List Op :=
  [Op.createOp ⟨"https://example.com"⟩ (some "KEY01") allT allT gIdx 0 1,
   Op.forwardOp "http://localhost:8000" "KEY01",
   Op.deleteOp "KEY01_AAAAAAAA"]

/-- The record created from the empty store with a generated key under gIdx. -/
def rowC2 : URLRecord := ⟨0, "https://example.com", "ABCDE", "ABCDE_FGHIJKLM", 0, true⟩

/-- The create response payload for `rowC2`. -/
def infoC2 : URLInfo := ⟨rowC2, "ABCDE", "ABCDE_FGHIJKLM"⟩

/-- The store after creating `rowC2`. -/
def db2C2 : Store := ⟨[rowC2], 1⟩

/-- The record created from the empty store with explicit key ABCDE under
gIdx. -/
def rowC4 : URLRecord := ⟨0, "https://example.com", "ABCDE", "ABCDE_ABCDEFGH", 0, true⟩

/-- The create response payload for `rowC4`. -/
def infoC4 : URLInfo := ⟨rowC4, "ABCDE", "ABCDE_ABCDEFGH"⟩

/-- The store after creating `rowC4`. -/
def db2C4 : Store := ⟨[rowC4], 1⟩

/-! ## Lookup characterisations -/

lemma get_key_none_iff (db : Store) (k : String) :
    get_db_url_by_key db k = none ↔
      ∀ r ∈ db.records, r.key = k → r.is_active = false := by
  simp [get_db_url_by_key, List.find?_eq_none]

lemma get_secret_none_iff (db : Store) (sk : String) :
    get_db_url_by_secret_key db sk = none ↔
      ∀ r ∈ db.records, r.secret_key = sk → r.is_active = false := by
  simp [get_db_url_by_secret_key, List.find?_eq_none]

lemma get_key_some_spec (db : Store) (k : String) (r : URLRecord)
    (h : get_db_url_by_key db k = some r) :
    r ∈ db.records ∧ r.key = k ∧ r.is_active = true := by
  have h2 := List.find?_some h
  simp only [Bool.and_eq_true, beq_iff_eq] at h2
  exact ⟨List.mem_of_find?_eq_some h, h2.1, h2.2⟩

lemma get_secret_some_spec (db : Store) (sk : String) (r : URLRecord)
    (h : get_db_url_by_secret_key db sk = some r) :
    r ∈ db.records ∧ r.secret_key = sk ∧ r.is_active = true := by
  have h2 := List.find?_some h
  simp only [Bool.and_eq_true, beq_iff_eq] at h2
  exact ⟨List.mem_of_find?_eq_some h, h2.1, h2.2⟩

lemma dead_key_lookup (db : Store) (k : String) (h : DeadKey db k) :
    get_db_url_by_key db k = none := (get_key_none_iff db k).2 h.2

lemma dead_secret_lookup (db : Store) (sk : String) (h : DeadSecret db sk) :
    get_db_url_by_secret_key db sk = none := (get_secret_none_iff db sk).2 h.2

/-! ## Functional update of one row -/

lemma map_upd_cases (l : List URLRecord) (u upd : URLRecord)
    (hinj : ∀ x ∈ l, ∀ y ∈ l, x.id = y.id → x = y) (hu : u ∈ l) :
    ∀ x ∈ l, (if x.id == u.id then upd else x) = x ∨
      (x = u ∧ (if x.id == u.id then upd else x) = upd) := by
  intro x hx
  by_cases h : x.id = u.id
  · exact Or.inr ⟨hinj x hx u hu h, by simp [h]⟩
  · exact Or.inl (by simp [h])

lemma mapped_store_preserves (db : Store) (u upd : URLRecord)
    (hu : u ∈ db.records) (hwf : WF db)
    (hid : upd.id = u.id) (hkey : upd.key = u.key) (hsk : upd.secret_key = u.secret_key)
    (hact : upd.is_active = true → u.is_active = true) :
    WF ⟨db.records.map (fun r => if r.id == u.id then upd else r), db.nextId⟩ ∧
    (∀ k, DeadKey db k →
      DeadKey ⟨db.records.map (fun r => if r.id == u.id then upd else r), db.nextId⟩ k) ∧
    (∀ sk, DeadSecret db sk →
      DeadSecret ⟨db.records.map (fun r => if r.id == u.id then upd else r), db.nextId⟩ sk) := by
  obtain ⟨hinj, hkinj, hskinj, hlt⟩ := hwf
  have hcases := map_upd_cases db.records u upd hinj hu
  have hfields : ∀ x ∈ db.records,
      (if x.id == u.id then upd else x).id = x.id ∧
      (if x.id == u.id then upd else x).key = x.key ∧
      (if x.id == u.id then upd else x).secret_key = x.secret_key ∧
      ((if x.id == u.id then upd else x).is_active = true → x.is_active = true) := by
    intro x hx
    rcases hcases x hx with h | ⟨hxu, h⟩
    · rw [h]; exact ⟨rfl, rfl, rfl, fun t => t⟩
    · rw [h]; subst hxu; exact ⟨hid, hkey, hsk, hact⟩
  refine ⟨⟨?_, ?_, ?_, ?_⟩, ?_, ?_⟩
  · intro a ha b hb hab
    obtain ⟨x, hx, rfl⟩ := List.mem_map.1 ha
    obtain ⟨y, hy, rfl⟩ := List.mem_map.1 hb
    rw [(hfields x hx).1, (hfields y hy).1] at hab
    rw [hinj x hx y hy hab]
  · intro a ha b hb hab
    obtain ⟨x, hx, rfl⟩ := List.mem_map.1 ha
    obtain ⟨y, hy, rfl⟩ := List.mem_map.1 hb
    rw [(hfields x hx).2.1, (hfields y hy).2.1] at hab
    rw [hkinj x hx y hy hab]
  · intro a ha b hb hab
    obtain ⟨x, hx, rfl⟩ := List.mem_map.1 ha
    obtain ⟨y, hy, rfl⟩ := List.mem_map.1 hb
    rw [(hfields x hx).2.2.1, (hfields y hy).2.2.1] at hab
    rw [hskinj x hx y hy hab]
  · intro a ha
    obtain ⟨x, hx, rfl⟩ := List.mem_map.1 ha
    rw [(hfields x hx).1]
    exact hlt x hx
  · rintro k ⟨⟨s, hs, hsk2⟩, hall⟩
    constructor
    · refine ⟨(fun r => if r.id == u.id then upd else r) s, List.mem_map_of_mem _ hs, ?_⟩
      rw [(hfields s hs).2.1]; exact hsk2
    · intro a ha hak
      obtain ⟨x, hx, rfl⟩ := List.mem_map.1 ha
      rw [(hfields x hx).2.1] at hak
      have hxina := hall x hx hak
      rcases Bool.eq_false_or_eq_true
          ((if x.id == u.id then upd else x).is_active) with ht | hf
      · have := (hfields x hx).2.2.2 ht
        rw [hxina] at this; cases this
      · exact hf
  · rintro sk ⟨⟨s, hs, hsk2⟩, hall⟩
    constructor
    · refine ⟨(fun r => if r.id == u.id then upd else r) s, List.mem_map_of_mem _ hs, ?_⟩
      rw [(hfields s hs).2.2.1]; exact hsk2
    · intro a ha hak
      obtain ⟨x, hx, rfl⟩ := List.mem_map.1 ha
      rw [(hfields x hx).2.2.1] at hak
      have hxina := hall x hx hak
      rcases Bool.eq_false_or_eq_true
          ((if x.id == u.id then upd else x).is_active) with ht | hf
      · have := (hfields x hx).2.2.2 ht
        rw [hxina] at this; cases this
      · exact hf

/-! ## Per-operation preservation -/

lemma insert_url_some_spec (db : Store) (t k0 s0 : String) (db2 : Store) (row : URLRecord)
    (h : insert_url db t k0 s0 = some (db2, row)) :
    row = ⟨db.nextId, t, k0, s0, 0, true⟩ ∧
    db2 = ⟨db.records ++ [row], db.nextId + 1⟩ ∧
    (∀ r ∈ db.records, r.key ≠ k0 ∧ r.secret_key ≠ s0) := by
  rw [insert_url] at h
  by_cases hany : (db.records.any (fun r => r.key == k0 || r.secret_key == s0)) = true
  · rw [if_pos hany] at h; cases h
  · rw [if_neg hany] at h
    simp only [Option.some.injEq, Prod.mk.injEq] at h
    obtain ⟨rfl, rfl⟩ := h
    refine ⟨rfl, rfl, ?_⟩
    intro r hr
    constructor
    · intro hkey
      exact hany (List.any_eq_true.2 ⟨r, hr, by simp [hkey]⟩)
    · intro hsk
      exact hany (List.any_eq_true.2 ⟨r, hr, by simp [hsk]⟩)

lemma insert_url_preserves (db : Store) (t k0 s0 : String) (db2 : Store) (row : URLRecord)
    (h : insert_url db t k0 s0 = some (db2, row)) (hwf : WF db) :
    WF db2 ∧ (∀ k, DeadKey db k → DeadKey db2 k) ∧
    (∀ sk, DeadSecret db sk → DeadSecret db2 sk) := by
  obtain ⟨hrow, hdb2, hfree⟩ := insert_url_some_spec db t k0 s0 db2 row h
  obtain ⟨hinj, hkinj, hskinj, hlt⟩ := hwf
  subst hdb2
  have hrowid : row.id = db.nextId := by rw [hrow]
  have hrowkey : row.key = k0 := by rw [hrow]
  have hrowsk : row.secret_key = s0 := by rw [hrow]
  have hmem2 : ∀ x, x ∈ db.records ++ [row] → x ∈ db.records ∨ x = row := by
    intro x hx
    rcases List.mem_append.1 hx with h1 | h1
    · exact Or.inl h1
    · exact Or.inr (List.mem_singleton.1 h1)
  refine ⟨⟨?_, ?_, ?_, ?_⟩, ?_, ?_⟩
  · intro a ha b hb hab
    rcases hmem2 a ha with h1 | h1 <;> rcases hmem2 b hb with h2 | h2
    · exact hinj a h1 b h2 hab
    · subst h2; rw [hrowid] at hab; exact absurd hab (Nat.ne_of_lt (hlt a h1))
    · subst h1; rw [hrowid] at hab
      exact absurd hab.symm (Nat.ne_of_lt (hlt b h2))
    · rw [h1, h2]
  · intro a ha b hb hab
    rcases hmem2 a ha with h1 | h1 <;> rcases hmem2 b hb with h2 | h2
    · exact hkinj a h1 b h2 hab
    · subst h2; rw [hrowkey] at hab; exact absurd hab (hfree a h1).1
    · subst h1; rw [hrowkey] at hab; exact absurd hab.symm (hfree b h2).1
    · rw [h1, h2]
  · intro a ha b hb hab
    rcases hmem2 a ha with h1 | h1 <;> rcases hmem2 b hb with h2 | h2
    · exact hskinj a h1 b h2 hab
    · subst h2; rw [hrowsk] at hab; exact absurd hab (hfree a h1).2
    · subst h1; rw [hrowsk] at hab; exact absurd hab.symm (hfree b h2).2
    · rw [h1, h2]
  · intro a ha
    rcases hmem2 a ha with h1 | h1
    · exact Nat.lt_trans (hlt a h1) (Nat.lt_succ_self _)
    · rw [h1, hrowid]; exact Nat.lt_succ_self _
  · rintro k ⟨⟨s, hs, hsk2⟩, hall⟩
    refine ⟨⟨s, List.mem_append_left _ hs, hsk2⟩, ?_⟩
    intro a ha hak
    rcases hmem2 a ha with h1 | h1
    · exact hall a h1 hak
    · subst h1; rw [hrowkey] at hak
      subst hak
      exact absurd hsk2 (hfree s hs).1
  · rintro sk ⟨⟨s, hs, hsk2⟩, hall⟩
    refine ⟨⟨s, List.mem_append_left _ hs, hsk2⟩, ?_⟩
    intro a ha hak
    rcases hmem2 a ha with h1 | h1
    · exact hall a h1 hak
    · subst h1; rw [hrowsk] at hak
      subst hak
      exact absurd hsk2 (hfree s hs).2

lemma update_db_clicks_preserves (db : Store) (k0 : String) (u : URLRecord)
    (hu : get_db_url_by_key db k0 = some u) (hwf : WF db) :
    WF (update_db_clicks db u).1 ∧
    (∀ k, DeadKey db k → DeadKey (update_db_clicks db u).1 k) ∧
    (∀ sk, DeadSecret db sk → DeadSecret (update_db_clicks db u).1 sk) := by
  obtain ⟨hmem, -, -⟩ := get_key_some_spec db k0 u hu
  exact mapped_store_preserves db u
    ⟨u.id, u.target_url, u.key, u.secret_key, u.clicks + 1, u.is_active⟩
    hmem hwf rfl rfl rfl (fun t => t)

lemma deactivate_preserves (db : Store) (sk0 : String) (hwf : WF db) :
    WF (deactivate_db_url_by_secret_key db sk0).1 ∧
    (∀ k, DeadKey db k → DeadKey (deactivate_db_url_by_secret_key db sk0).1 k) ∧
    (∀ sk, DeadSecret db sk → DeadSecret (deactivate_db_url_by_secret_key db sk0).1 sk) := by
  rw [deactivate_db_url_by_secret_key]
  cases hc : get_db_url_by_secret_key db sk0 with
  | none => exact ⟨hwf, fun k h => h, fun sk h => h⟩
  | some u =>
    obtain ⟨hmem, -, -⟩ := get_secret_some_spec db sk0 u hc
    exact mapped_store_preserves db u
      ⟨u.id, u.target_url, u.key, u.secret_key, u.clicks, false⟩
      hmem hwf rfl rfl rfl (fun t => by simp at t)

lemma peek_state (b : String) (d : Store) (k : String) : (peek_target_url b d k).2 = d := by
  rw [peek_target_url]
  cases get_db_url_by_key d k <;> rfl

lemma admin_info_state (b : String) (d : Store) (sk : String) :
    (get_url_info b d sk).2 = d := by
  rw [get_url_info]
  cases get_db_url_by_secret_key d sk <;> rfl

lemma delete_state (d : Store) (sk0 : String) :
    (delete_url d sk0).2 = (deactivate_db_url_by_secret_key d sk0).1 := by
  rw [delete_url]
  cases (deactivate_db_url_by_secret_key d sk0).2 <;> rfl

/-! ## Create: structural facts -/

lemma create_db_url_insert (db : Store) (url : URLBase) (key : Option String)
    (g : Nat → Fin 36) (pos fuel : Nat) (db2 : Store) (row : URLRecord) (p2 : Nat)
    (h : create_db_url db url key g pos fuel = some (db2, row, p2)) :
    ∃ k0 pos1, insert_url db url.target_url k0
      (k0 ++ "_" ++ (create_random_key g pos1 8).1) = some (db2, row) ∧
      (∀ k, key = some k → k ≠ "" → k0 = k) ∧
      (key = none ∨ key = some "" →
        create_unique_random_key db g pos fuel 5 = some (k0, pos1)) := by
  rw [create_db_url.eq_def] at h
  rcases hsel : (match key with
    | some k => if k = "" then create_unique_random_key db g pos fuel 5 else some (k, pos)
    | none => create_unique_random_key db g pos fuel 5) with _ | ⟨k0, pos1⟩
  · rw [hsel] at h; cases h
  · rw [hsel] at h
    have h2 : (match insert_url db url.target_url k0
        (k0 ++ "_" ++ (create_random_key g pos1 8).1) with
      | none => none
      | some (db2, row) => some (db2, row, (create_random_key g pos1 8).2)) =
        some (db2, row, p2) := h
    clear h
    rcases hins : insert_url db url.target_url k0
        (k0 ++ "_" ++ (create_random_key g pos1 8).1) with _ | ⟨db2x, rowx⟩
    · rw [hins] at h2; cases h2
    · rw [hins] at h2
      rename' h2 => h
      simp only [Option.some.injEq, Prod.mk.injEq] at h
      obtain ⟨h1, h2, -⟩ := h
      refine ⟨k0, pos1, ?_, ?_, ?_⟩
      · rw [hins, h1, h2]
      · rintro k rfl hk
        have hsel2 : (if k = "" then create_unique_random_key db g pos fuel 5
            else some (k, pos)) = some (k0, pos1) := hsel
        rw [if_neg hk] at hsel2
        exact (congrArg Prod.fst (Option.some.inj hsel2)).symm
      · rintro (rfl | rfl)
        · exact hsel
        · have hsel2 : (if ("" : String) = "" then create_unique_random_key db g pos fuel 5
              else some ("", pos)) = some (k0, pos1) := hsel
          rw [if_pos rfl] at hsel2
          exact hsel2

lemma create_url_state (db : Store) (url : URLBase) (key : Option String)
    (valid reachable : String → Bool) (g : Nat → Fin 36) (pos fuel : Nat) :
    (create_url db url key valid reachable g pos fuel).2 = db ∨
    ∃ t k0 s0 row, insert_url db t k0 s0 =
      some ((create_url db url key valid reachable g pos fuel).2, row) := by
  rw [create_url]
  by_cases h1 : valid url.target_url = false
  · rw [if_pos h1]; exact Or.inl rfl
  · rw [if_neg h1]
    by_cases h2 : key_already_exists db key = true
    · rw [if_pos h2]; exact Or.inl rfl
    · rw [if_neg h2]
      by_cases h3 : reachable url.target_url = false
      · rw [if_pos h3]; exact Or.inl rfl
      · rw [if_neg h3]
        rcases hc : create_db_url db url key g pos fuel with _ | ⟨db2, row, p2⟩
        · exact Or.inl rfl
        · obtain ⟨k0, pos1, hins, -, -⟩ :=
            create_db_url_insert db url key g pos fuel db2 row p2 hc
          exact Or.inr ⟨url.target_url, k0, k0 ++ "_" ++ (create_random_key g pos1 8).1,
            row, hins⟩

/-! ## Invariant preservation across operation sequences -/

lemma applyOp_preserves (d : Store) (op : Op) (k sk : String)
    (h : WF d ∧ DeadKey d k ∧ DeadSecret d sk) :
    WF (applyOp d op) ∧ DeadKey (applyOp d op) k ∧ DeadSecret (applyOp d op) sk := by
  obtain ⟨hwf, hdk, hds⟩ := h
  cases op with
  | createOp url key valid reachable g pos fuel =>
    simp only [applyOp]
    rcases create_url_state d url key valid reachable g pos fuel with h2 | ⟨t, k0, s0, row, h2⟩
    · rw [h2]; exact ⟨hwf, hdk, hds⟩
    · obtain ⟨hwf2, hk2, hs2⟩ := insert_url_preserves d t k0 s0 _ row h2 hwf
      exact ⟨hwf2, hk2 k hdk, hs2 sk hds⟩
  | forwardOp base k0 =>
    simp only [applyOp, forward_to_target_url]
    cases hc : get_db_url_by_key d k0 with
    | none => exact ⟨hwf, hdk, hds⟩
    | some u =>
      obtain ⟨hwf2, hk2, hs2⟩ := update_db_clicks_preserves d k0 u hc hwf
      exact ⟨hwf2, hk2 k hdk, hs2 sk hds⟩
  | peekOp base k0 =>
    simp only [applyOp]
    rw [peek_state]; exact ⟨hwf, hdk, hds⟩
  | adminInfoOp base sk0 =>
    simp only [applyOp]
    rw [admin_info_state]; exact ⟨hwf, hdk, hds⟩
  | deleteOp sk0 =>
    simp only [applyOp]
    rw [delete_state]
    obtain ⟨hwf2, hk2, hs2⟩ := deactivate_preserves d sk0 hwf
    exact ⟨hwf2, hk2 k hdk, hs2 sk hds⟩

lemma applyOps_preserves (d : Store) (ops : List Op) (k sk : String)
    (h : WF d ∧ DeadKey d k ∧ DeadSecret d sk) :
    WF (applyOps d ops) ∧ DeadKey (applyOps d ops) k ∧ DeadSecret (applyOps d ops) sk := by
  induction ops generalizing d with
  | nil => exact h
  | cons op ops ih => exact ih (applyOp d op) (applyOp_preserves d op k sk h)

/-! ## Deactivation kills both lookup paths -/

lemma deactivate_some_spec (db : Store) (sk : String) (db2 : Store) (r : URLRecord)
    (h : deactivate_db_url_by_secret_key db sk = (db2, some r)) (hwf : WF db) :
    r.secret_key = sk ∧ r.is_active = false ∧ WF db2 ∧
    DeadKey db2 r.key ∧ DeadSecret db2 r.secret_key := by
  rw [deactivate_db_url_by_secret_key] at h
  cases hc : get_db_url_by_secret_key db sk with
  | none =>
    rw [hc] at h
    exact Option.noConfusion (congrArg Prod.snd h)
  | some u =>
    rw [hc] at h
    obtain ⟨hmem, husk, huact⟩ := get_secret_some_spec db sk u hc
    have hdb2 : db2 = ⟨db.records.map (fun x => if x.id == u.id then
        ⟨u.id, u.target_url, u.key, u.secret_key, u.clicks, false⟩ else x), db.nextId⟩ :=
      (congrArg Prod.fst h).symm
    have hr : r = ⟨u.id, u.target_url, u.key, u.secret_key, u.clicks, false⟩ :=
      (Option.some.inj (congrArg Prod.snd h)).symm
    subst hdb2
    subst hr
    refine ⟨husk, rfl, ?_, ?_, ?_⟩
    · exact (mapped_store_preserves db u
        ⟨u.id, u.target_url, u.key, u.secret_key, u.clicks, false⟩
        hmem hwf rfl rfl rfl (fun t => by simp at t)).1
    · constructor
      · exact ⟨(fun x => if x.id == u.id then
          ⟨u.id, u.target_url, u.key, u.secret_key, u.clicks, false⟩ else x) u,
          List.mem_map_of_mem _ hmem, by simp⟩
      · intro a ha hak
        obtain ⟨x, hx, rfl⟩ := List.mem_map.1 ha
        by_cases hxid : x.id = u.id
        · rw [if_pos (by simp [hxid])]
        · rw [if_neg (by simp [hxid])] at hak ⊢
          have hxu : x = u := hwf.2.1 x hx u hmem hak
          exact absurd (by rw [hxu]) hxid
    · constructor
      · exact ⟨(fun x => if x.id == u.id then
          ⟨u.id, u.target_url, u.key, u.secret_key, u.clicks, false⟩ else x) u,
          List.mem_map_of_mem _ hmem, by simp⟩
      · intro a ha hak
        obtain ⟨x, hx, rfl⟩ := List.mem_map.1 ha
        by_cases hxid : x.id = u.id
        · rw [if_pos (by simp [hxid])]
        · rw [if_neg (by simp [hxid])] at hak ⊢
          have hxu : x = u := hwf.2.2.1 x hx u hmem hak
          exact absurd (by rw [hxu]) hxid

/-! ## Generated keys: length, alphabet, uniqueness loop -/

lemma alphaChar_mem (i : Fin 36) : alphaChar i ∈ ALPHABET.toList := by
  rw [alphaChar, List.getD_eq_getElem?_getD]
  have hlen : ALPHABET.toList.length = 36 := by decide
  have hlt : i.val < ALPHABET.toList.length := by rw [hlen]; exact i.isLt
  rw [List.getElem?_eq_getElem hlt]
  exact List.getElem_mem hlt

lemma create_random_key_length (g : Nat → Fin 36) (pos length : Nat) :
    (create_random_key g pos length).1.length = length := by
  simp [create_random_key]

lemma create_random_key_chars (g : Nat → Fin 36) (pos length : Nat) :
    ∀ c ∈ (create_random_key g pos length).1.toList, c ∈ ALPHABET.toList := by
  intro c hc
  have hc2 : c ∈ (List.range length).map (fun i => alphaChar (g (pos + i))) := hc
  obtain ⟨i, -, rfl⟩ := List.mem_map.1 hc2
  exact alphaChar_mem (g (pos + i))

lemma create_unique_key_avoids (db : Store) (g : Nat → Fin 36) (pos fuel length : Nat)
    (k : String) (p : Nat)
    (h : create_unique_random_key db g pos fuel length = some (k, p)) :
    get_db_url_by_key db k = none := by
  induction fuel generalizing pos with
  | zero => cases h
  | succ n ih =>
    rw [create_unique_random_key] at h
    cases hc : get_db_url_by_key db (create_random_key g pos length).1 with
    | some u =>
      have h2 : create_unique_random_key db g (create_random_key g pos length).2 n length =
          some (k, p) := by
        rw [hc] at h; exact h
      exact ih _ h2
    | none =>
      have h2 : some (create_random_key g pos length) = some (k, p) := by
        rw [hc] at h; exact h
      have hk : (create_random_key g pos length).1 = k :=
        congrArg Prod.fst (Option.some.inj h2)
      rw [hk] at hc
      exact hc

/-! ## Create success: full specification -/

lemma create_db_url_ok_spec (db : Store) (url : URLBase) (key : Option String)
    (g : Nat → Fin 36) (pos fuel : Nat) (db2 : Store) (row : URLRecord) (p2 : Nat)
    (h : create_db_url db url key g pos fuel = some (db2, row, p2)) :
    row.target_url = url.target_url ∧ row.clicks = 0 ∧ row.is_active = true ∧
    row.id = db.nextId ∧ db2.records = db.records ++ [row] ∧
    db2.nextId = db.nextId + 1 ∧
    (∀ r ∈ db.records, r.key ≠ row.key ∧ r.secret_key ≠ row.secret_key) ∧
    (∃ suffix : String, suffix.length = 8 ∧
      (∀ c ∈ suffix.toList, c ∈ ALPHABET.toList) ∧
      row.secret_key = row.key ++ "_" ++ suffix) ∧
    (∀ k, key = some k → k ≠ "" → row.key = k) := by
  obtain ⟨k0, pos1, hins, hexp, -⟩ :=
    create_db_url_insert db url key g pos fuel db2 row p2 h
  obtain ⟨hrow, hdb2, hfree⟩ := insert_url_some_spec _ _ _ _ _ _ hins
  subst hrow
  subst hdb2
  refine ⟨rfl, rfl, rfl, rfl, rfl, rfl, ?_, ?_, ?_⟩
  · intro r hr
    exact hfree r hr
  · exact ⟨(create_random_key g pos1 8).1, create_random_key_length g pos1 8,
      create_random_key_chars g pos1 8, rfl⟩
  · intro k hk hne
    exact hexp k hk hne

lemma create_url_ok_spec (db : Store) (url : URLBase) (key : Option String)
    (valid reachable : String → Bool) (g : Nat → Fin 36) (pos fuel : Nat)
    (info : URLInfo) (db2 : Store)
    (h : create_url db url key valid reachable g pos fuel = (HResult.ok info, db2)) :
    info.url = info.record.key ∧ info.admin_url = info.record.secret_key ∧
    ∃ p2, create_db_url db url key g pos fuel = some (db2, info.record, p2) := by
  rw [create_url] at h
  by_cases h1 : valid url.target_url = false
  · rw [if_pos h1] at h; exact absurd (congrArg Prod.fst h) (by simp)
  · rw [if_neg h1] at h
    by_cases h2 : key_already_exists db key = true
    · rw [if_pos h2] at h; exact absurd (congrArg Prod.fst h) (by simp)
    · rw [if_neg h2] at h
      by_cases h3 : reachable url.target_url = false
      · rw [if_pos h3] at h; exact absurd (congrArg Prod.fst h) (by simp)
      · rw [if_neg h3] at h
        rcases hc : create_db_url db url key g pos fuel with _ | ⟨db2x, rowx, p2x⟩
        · rw [hc] at h; exact absurd (congrArg Prod.fst h) (by simp)
        · rw [hc] at h
          have hinfo : info = ⟨rowx, rowx.key, rowx.secret_key⟩ :=
            (HResult.ok.inj (congrArg Prod.fst h)).symm
          have hdb2 : db2 = db2x := (congrArg Prod.snd h).symm
          subst hinfo
          subst hdb2
          exact ⟨rfl, rfl, p2x, rfl⟩

/-! ## Claim theorems -/

/-- Claim C7: for every store state and every outcome of the random source for
which generate_unique_key returns, the returned key differs from the key of
every active record present in the store. -/
theorem create_unique_random_key_avoids_active (db : Store) (g : Nat → Fin 36)
    (pos fuel length : Nat) (k : String) (p : Nat)
    (h : create_unique_random_key db g pos fuel length = some (k, p)) :
    ∀ r ∈ db.records, r.is_active = true → r.key ≠ k := by
  have h0 := (get_key_none_iff db k).1
    (create_unique_key_avoids db g pos fuel length k p h)
  intro r hr hact hk
  have hf := h0 r hr hk
  rw [hf] at hact
  cases hact

/-- Witness for C7 at a concrete store where the first draw collides with an
active record and the loop retries once. -/
theorem create_unique_random_key_avoids_active_witness :
    create_unique_random_key db0C7 gIdx 0 2 5 = some ("FGHIJ", 10) ∧
    ∀ r ∈ db0C7.records, r.is_active = true → r.key ≠ "FGHIJ" :=
  ⟨by decide,
   create_unique_random_key_avoids_active db0C7 gIdx 0 2 5 "FGHIJ" 10 (by decide)⟩

/-- Claim C5: record_click increments the record's clicks by exactly 1,
persists the updated record, and after n consecutive calls clicks equals the
prior value plus n. -/
theorem record_click_increments (db : Store) (r : URLRecord) (n : Nat) :
    (update_db_clicks db r).2.clicks = r.clicks + 1 ∧
    (r ∈ db.records → (update_db_clicks db r).2 ∈ (update_db_clicks db r).1.records) ∧
    (clicksIter n db r).2.clicks = r.clicks + n := by
  refine ⟨rfl, ?_, ?_⟩
  · intro hr
    exact List.mem_map.2 ⟨r, hr, by simp [update_db_clicks]⟩
  · induction n generalizing db r with
    | zero => rfl
    | succ m ih =>
      rw [clicksIter, ih]
      show r.clicks + 1 + m = r.clicks + (m + 1)
      omega

/-- Witness for C5 at a concrete record with prior clicks 3 and n = 3. -/
theorem record_click_increments_witness :
    (update_db_clicks dbC5 rowC5).2.clicks = rowC5.clicks + 1 ∧
    (rowC5 ∈ dbC5.records →
      (update_db_clicks dbC5 rowC5).2 ∈ (update_db_clicks dbC5 rowC5).1.records) ∧
    (clicksIter 3 dbC5 rowC5).2.clicks = rowC5.clicks + 3 :=
  record_click_increments dbC5 rowC5 3

/-- Claim C8: for a key resolving to an active record, peek returns that
record's target_url and returns the store completely unchanged. -/
theorem peek_preserves_store (base_url : String) (db : Store) (key : String)
    (r : URLRecord) (h : get_db_url_by_key db key = some r) :
    peek_target_url base_url db key = (HResult.ok r.target_url, db) := by
  rw [peek_target_url, h]

/-- Witness for C8 at a concrete store. -/
theorem peek_preserves_store_witness :
    get_db_url_by_key dbC5 "ABCDE" = some rowC5 ∧
    peek_target_url "http://localhost:8000" dbC5 "ABCDE" =
      (HResult.ok rowC5.target_url, dbC5) :=
  ⟨by decide,
   peek_preserves_store "http://localhost:8000" dbC5 "ABCDE" rowC5 (by decide)⟩

/-- Claim C10: for a key or secret key that resolves to no active record, each
failing operation (redirect, peek, admin info, delete) returns NotFound and
leaves the store unchanged. -/
theorem notfound_preserves_store (base_url : String) (db : Store) (k sk : String)
    (hk : get_db_url_by_key db k = none)
    (hsk : get_db_url_by_secret_key db sk = none) :
    forward_to_target_url base_url db k = (HResult.notFound (base_url ++ "/" ++ k), db) ∧
    peek_target_url base_url db k = (HResult.notFound (base_url ++ "/" ++ k), db) ∧
    get_url_info base_url db sk = (HResult.notFound "", db) ∧
    delete_url db sk = (HResult.notFound "", db) := by
  refine ⟨?_, ?_, ?_, ?_⟩
  · rw [forward_to_target_url, hk]
  · rw [peek_target_url, hk]
  · rw [get_url_info, hsk]
  · rw [delete_url, deactivate_db_url_by_secret_key, hsk]

/-- Witness for C10 at a concrete store and unknown key / secret key. -/
theorem notfound_preserves_store_witness :
    get_db_url_by_key dbC5 "NOPE" = none ∧
    get_db_url_by_secret_key dbC5 "NOPE" = none ∧
    (forward_to_target_url "http://localhost:8000" dbC5 "NOPE" =
      (HResult.notFound ("http://localhost:8000" ++ "/" ++ "NOPE"), dbC5) ∧
    peek_target_url "http://localhost:8000" dbC5 "NOPE" =
      (HResult.notFound ("http://localhost:8000" ++ "/" ++ "NOPE"), dbC5) ∧
    get_url_info "http://localhost:8000" dbC5 "NOPE" = (HResult.notFound "", dbC5) ∧
    delete_url dbC5 "NOPE" = (HResult.notFound "", dbC5)) :=
  ⟨by decide, by decide,
   notfound_preserves_store "http://localhost:8000" dbC5 "NOPE" "NOPE"
     (by decide) (by decide)⟩

/-- Claim C3: after deactivate_by_secret_key succeeds on a record's secret key,
both find_by_key on its key and find_by_secret_key on its secret key return
nothing after every subsequent sequence of operations, and a second delete
with the same secret key returns NotFound with the store unchanged. -/
theorem deactivation_is_permanent (db db2 : Store) (sk : String) (r : URLRecord)
    (ops : List Op) (hwf : WF db)
    (h : deactivate_db_url_by_secret_key db sk = (db2, some r)) :
    get_db_url_by_key (applyOps db2 ops) r.key = none ∧
    get_db_url_by_secret_key (applyOps db2 ops) r.secret_key = none ∧
    delete_url (applyOps db2 ops) sk = (HResult.notFound "", applyOps db2 ops) := by
  obtain ⟨hsk, -, hwf2, hdk, hds⟩ := deactivate_some_spec db sk db2 r h hwf
  obtain ⟨-, hdk2, hds2⟩ := applyOps_preserves db2 ops r.key r.secret_key ⟨hwf2, hdk, hds⟩
  have h1 := dead_key_lookup _ _ hdk2
  have h2 := dead_secret_lookup _ _ hds2
  refine ⟨h1, h2, ?_⟩
  have h3 : get_db_url_by_secret_key (applyOps db2 ops) sk = none := by
    rw [← hsk]; exact h2
  rw [delete_url, deactivate_db_url_by_secret_key, h3]

/-- Witness for C3 at a concrete store, running a re-creation attempt with the
dead key, a redirect attempt, and a repeated delete after the deactivation. -/
theorem deactivation_is_permanent_witness :
    (WF db3 ∧
     deactivate_db_url_by_secret_key db3 "KEY01_AAAAAAAA" = (db3x, some r3)) ∧
    (get_db_url_by_key (applyOps db3x ops3) r3.key = none ∧
     get_db_url_by_secret_key (applyOps db3x ops3) r3.secret_key = none ∧
     delete_url (applyOps db3x ops3) "KEY01_AAAAAAAA" =
       (HResult.notFound "", applyOps db3x ops3)) :=
  ⟨⟨by unfold WF; decide, by decide⟩,
   deactivation_is_permanent db3 db3x "KEY01_AAAAAAAA" r3 ops3
     (by unfold WF; decide) (by decide)⟩

/-- Claim C1 (counterexample): with one inactive record whose key is ABCDE, the
generator returns ABCDE and the create handler's explicit-key check does not
reject it, although a record ever created carries that key. -/
theorem create_checks_ignore_inactive_cex :
    (∃ r ∈ dbC1.records, r.key = "ABCDE") ∧
    create_unique_random_key dbC1 gIdx 0 1 5 = some ("ABCDE", 5) ∧
    key_already_exists dbC1 (some "ABCDE") = false :=
  ⟨by decide, by decide, by decide⟩

/-- Claim C1 (amended): the pre-assignment key checks consult only active
records: a key returned by the generator collides with no active record's key,
and the create handler's explicit-key check fires exactly when an active
record carries the non-empty candidate key. -/
theorem create_checks_consult_only_active (db : Store) (g : Nat → Fin 36)
    (pos fuel length : Nat) (k0 : String) (p : Nat) (k : String) (hk : k ≠ "")
    (hg : create_unique_random_key db g pos fuel length = some (k0, p)) :
    (∀ r ∈ db.records, r.is_active = true → r.key ≠ k0) ∧
    (key_already_exists db (some k) = true ↔
      ∃ r ∈ db.records, r.is_active = true ∧ r.key = k) := by
  constructor
  · have h0 := (get_key_none_iff db k0).1
      (create_unique_key_avoids db g pos fuel length k0 p hg)
    intro r hr hact hkey
    have hf := h0 r hr hkey
    rw [hf] at hact
    cases hact
  · show ((k != "") && (get_db_url_by_key db k).isSome) = true ↔ _
    constructor
    · intro h
      rw [Bool.and_eq_true] at h
      obtain ⟨-, hs⟩ := h
      rcases ho : get_db_url_by_key db k with _ | r
      · rw [ho] at hs; cases hs
      · obtain ⟨hmem, hkey, hact⟩ := get_key_some_spec db k r ho
        exact ⟨r, hmem, hact, hkey⟩
    · rintro ⟨r, hmem, hact, hkey⟩
      rw [Bool.and_eq_true]
      refine ⟨bne_iff_ne.2 hk, ?_⟩
      rcases ho : get_db_url_by_key db k with _ | s
      · have hf := (get_key_none_iff db k).1 ho r hmem hkey
        rw [hf] at hact
        cases hact
      · rfl

/-- Witness for C1 at a concrete store with one inactive record. -/
theorem create_checks_consult_only_active_witness :
    (("QQQQQ" : String) ≠ "" ∧
     create_unique_random_key dbC1 gIdx 0 1 5 = some ("ABCDE", 5)) ∧
    ((∀ r ∈ dbC1.records, r.is_active = true → r.key ≠ "ABCDE") ∧
     (key_already_exists dbC1 (some "QQQQQ") = true ↔
       ∃ r ∈ dbC1.records, r.is_active = true ∧ r.key = "QQQQQ")) :=
  ⟨⟨by decide, by decide⟩,
   create_checks_consult_only_active dbC1 gIdx 0 1 5 "ABCDE" 5 "QQQQQ"
     (by decide) (by decide)⟩

/-- Claim C2 (counterexample): a successful create whose response url field is
the bare key rather than the configured base URL with its path replaced by the
key. -/
theorem create_link_fields_not_derived_cex :
    create_url emptyStore ⟨"https://example.com"⟩ none allT allT gIdx 0 1 =
      (HResult.ok infoC2, db2C2) ∧
    infoC2.url = "ABCDE" ∧
    replace_path "http://localhost:8000" "ABCDE" = "http://localhost:8000/ABCDE" ∧
    infoC2.url ≠ replace_path "http://localhost:8000" "ABCDE" :=
  ⟨by decide, by decide, by decide, by decide⟩

/-- Claim C2 (amended): on create responses the url and admin_url fields are
the record's bare key and secret_key verbatim; the admin-info endpoint is the
one that computes both by substituting the configured base URL's path. -/
theorem create_and_admin_link_fields (db : Store) (url : URLBase)
    (key : Option String) (valid reachable : String → Bool) (g : Nat → Fin 36)
    (pos fuel : Nat) (info : URLInfo) (db2 : Store)
    (h : create_url db url key valid reachable g pos fuel = (HResult.ok info, db2)) :
    (info.url = info.record.key ∧ info.admin_url = info.record.secret_key) ∧
    ∀ base d sk r, get_db_url_by_secret_key d sk = some r →
      get_url_info base d sk =
        (HResult.ok ⟨r, replace_path base r.key,
          replace_path base (admin_route r.secret_key)⟩, d) := by
  obtain ⟨h1, h2, -⟩ :=
    create_url_ok_spec db url key valid reachable g pos fuel info db2 h
  refine ⟨⟨h1, h2⟩, ?_⟩
  intro base d sk r hr
  rw [get_url_info, hr]
  rfl

/-- Witness for C2 at a concrete successful create. -/
theorem create_and_admin_link_fields_witness :
    create_url emptyStore ⟨"https://example.com"⟩ none allT allT gIdx 0 1 =
      (HResult.ok infoC2, db2C2) ∧
    ((infoC2.url = infoC2.record.key ∧ infoC2.admin_url = infoC2.record.secret_key) ∧
     ∀ base d sk r, get_db_url_by_secret_key d sk = some r →
       get_url_info base d sk =
         (HResult.ok ⟨r, replace_path base r.key,
           replace_path base (admin_route r.secret_key)⟩, d)) :=
  ⟨by decide,
   create_and_admin_link_fields emptyStore ⟨"https://example.com"⟩ none allT allT
     gIdx 0 1 infoC2 db2C2 (by decide)⟩

/-- Claim C4: round-trip — after a successful create, find_by_key on the new
record's key returns exactly that record, its target_url is the one passed to
create, its clicks is 0, and an explicit non-empty key is taken verbatim. -/
theorem create_find_roundtrip (db : Store) (url : URLBase) (key : Option String)
    (valid reachable : String → Bool) (g : Nat → Fin 36) (pos fuel : Nat)
    (info : URLInfo) (db2 : Store)
    (h : create_url db url key valid reachable g pos fuel = (HResult.ok info, db2)) :
    get_db_url_by_key db2 info.record.key = some info.record ∧
    info.record.target_url = url.target_url ∧
    info.record.clicks = 0 ∧
    ∀ k, key = some k → k ≠ "" → info.record.key = k := by
  obtain ⟨-, -, p2, hc⟩ :=
    create_url_ok_spec db url key valid reachable g pos fuel info db2 h
  obtain ⟨hturl, hclicks, hact, -, hrec, -, hfree, -, hexp⟩ :=
    create_db_url_ok_spec db url key g pos fuel db2 info.record p2 hc
  refine ⟨?_, hturl, hclicks, hexp⟩
  rw [get_db_url_by_key, hrec, List.find?_append]
  have hl : db.records.find? (fun r => r.key == info.record.key && r.is_active) = none := by
    rw [List.find?_eq_none]
    intro x hx
    simp [(hfree x hx).1]
  rw [hl]
  simp [hact]

/-- Witness for C4 with the explicit key ABCDE on the empty store. -/
theorem create_find_roundtrip_witness :
    create_url emptyStore ⟨"https://example.com"⟩ (some "ABCDE") allT allT gIdx 0 1 =
      (HResult.ok infoC4, db2C4) ∧
    (get_db_url_by_key db2C4 infoC4.record.key = some infoC4.record ∧
     infoC4.record.target_url = "https://example.com" ∧
     infoC4.record.clicks = 0 ∧
     ∀ k, (some "ABCDE" : Option String) = some k → k ≠ "" → infoC4.record.key = k) :=
  ⟨by decide,
   create_find_roundtrip emptyStore ⟨"https://example.com"⟩ (some "ABCDE") allT allT
     gIdx 0 1 infoC4 db2C4 (by decide)⟩

/-- Claim C6: every successful create_db_url stores a secret_key equal to the
record's key, an underscore, and an 8-character key drawn from the alphabet;
the record is created active with clicks 0; and the persisted record with its
assigned id is appended to the table and returned. -/
theorem create_db_url_secret_and_defaults (db : Store) (url : URLBase)
    (key : Option String) (g : Nat → Fin 36) (pos fuel : Nat)
    (db2 : Store) (row : URLRecord) (p2 : Nat)
    (h : create_db_url db url key g pos fuel = some (db2, row, p2)) :
    (∃ suffix : String, suffix.length = 8 ∧
      (∀ c ∈ suffix.toList, c ∈ ALPHABET.toList) ∧
      row.secret_key = row.key ++ "_" ++ suffix) ∧
    row.is_active = true ∧ row.clicks = 0 ∧ row.id = db.nextId ∧
    db2.records = db.records ++ [row] := by
  obtain ⟨-, hclicks, hact, hid, hrec, -, -, hsuf, -⟩ :=
    create_db_url_ok_spec db url key g pos fuel db2 row p2 h
  exact ⟨hsuf, hact, hclicks, hid, hrec⟩

/-- Witness for C6 at a concrete create with explicit key ABCDE. -/
theorem create_db_url_secret_and_defaults_witness :
    create_db_url emptyStore ⟨"https://example.com"⟩ (some "ABCDE") gIdx 0 0 =
      some (db2C4, rowC4, 8) ∧
    ((∃ suffix : String, suffix.length = 8 ∧
       (∀ c ∈ suffix.toList, c ∈ ALPHABET.toList) ∧
       rowC4.secret_key = rowC4.key ++ "_" ++ suffix) ∧
     rowC4.is_active = true ∧ rowC4.clicks = 0 ∧ rowC4.id = emptyStore.nextId ∧
     db2C4.records = emptyStore.records ++ [rowC4]) :=
  ⟨by decide,
   create_db_url_secret_and_defaults emptyStore ⟨"https://example.com"⟩ (some "ABCDE")
     gIdx 0 0 db2C4 rowC4 8 (by decide)⟩

/-- Claim C9: when an explicit key is supplied, any non-empty string is
accepted — no check of its length or of membership of its characters in the
alphabet — and the created record's key is exactly the supplied string. -/
theorem explicit_key_taken_verbatim (db : Store) (url : URLBase) (k : String)
    (valid reachable : String → Bool) (g : Nat → Fin 36) (pos fuel : Nat)
    (hne : k ≠ "")
    (hv : valid url.target_url = true)
    (hre : reachable url.target_url = true)
    (hfree : ∀ r ∈ db.records, r.key ≠ k ∧
      r.secret_key ≠ k ++ "_" ++ (create_random_key g pos 8).1) :
    ∃ info db2,
      create_url db url (some k) valid reachable g pos fuel = (HResult.ok info, db2) ∧
      info.record.key = k := by
  have hkexn : get_db_url_by_key db k = none := by
    rw [get_key_none_iff]
    intro r hr hk2
    exact absurd hk2 (hfree r hr).1
  have hany : (db.records.any
      (fun r => r.key == k ||
        r.secret_key == k ++ "_" ++ (create_random_key g pos 8).1)) = false := by
    rw [List.any_eq_false]
    intro r hr
    simp [(hfree r hr).1, (hfree r hr).2]
  have hins : insert_url db url.target_url k (k ++ "_" ++ (create_random_key g pos 8).1) =
      some (⟨db.records ++ [⟨db.nextId, url.target_url, k,
        k ++ "_" ++ (create_random_key g pos 8).1, 0, true⟩], db.nextId + 1⟩,
        ⟨db.nextId, url.target_url, k,
          k ++ "_" ++ (create_random_key g pos 8).1, 0, true⟩) := by
    rw [insert_url, if_neg (by simp [hany])]
  have hcdb : create_db_url db url (some k) g pos fuel =
      some (⟨db.records ++ [⟨db.nextId, url.target_url, k,
        k ++ "_" ++ (create_random_key g pos 8).1, 0, true⟩], db.nextId + 1⟩,
        ⟨db.nextId, url.target_url, k,
          k ++ "_" ++ (create_random_key g pos 8).1, 0, true⟩, pos + 8) := by
    rw [create_db_url.eq_def]
    have hsel : (match (some k : Option String) with
        | some k2 => if k2 = "" then create_unique_random_key db g pos fuel 5
            else some (k2, pos)
        | none => create_unique_random_key db g pos fuel 5) = some (k, pos) := by
      show (if k = "" then create_unique_random_key db g pos fuel 5
          else some (k, pos)) = some (k, pos)
      rw [if_neg hne]
    rw [hsel]
    show (match insert_url db url.target_url k
        (k ++ "_" ++ (create_random_key g pos 8).1) with
      | none => none
      | some (db2, row) => some (db2, row, (create_random_key g pos 8).2)) = _
    rw [hins]
    rfl
  have hkae : key_already_exists db (some k) = false := by
    show ((k != "") && (get_db_url_by_key db k).isSome) = false
    rw [hkexn]
    simp
  refine ⟨⟨⟨db.nextId, url.target_url, k,
      k ++ "_" ++ (create_random_key g pos 8).1, 0, true⟩,
      k, k ++ "_" ++ (create_random_key g pos 8).1⟩,
    ⟨db.records ++ [⟨db.nextId, url.target_url, k,
      k ++ "_" ++ (create_random_key g pos 8).1, 0, true⟩], db.nextId + 1⟩, ?_, rfl⟩
  rw [create_url, if_neg (by simp [hv]), if_neg (by simp [hkae]),
    if_neg (by simp [hre]), hcdb]

/-- Witness for C9 with the two-character lowercase key containing a
punctuation character. -/
theorem explicit_key_taken_verbatim_witness :
    (("a!" : String) ≠ "" ∧ allT "https://example.com" = true ∧
     (∀ r ∈ emptyStore.records, r.key ≠ "a!" ∧
       r.secret_key ≠ "a!" ++ "_" ++ (create_random_key gIdx 0 8).1)) ∧
    (∃ info db2,
      create_url emptyStore ⟨"https://example.com"⟩ (some "a!") allT allT gIdx 0 0 =
        (HResult.ok info, db2) ∧ info.record.key = "a!") :=
  ⟨⟨by decide, rfl, by decide⟩,
   explicit_key_taken_verbatim emptyStore ⟨"https://example.com"⟩ "a!" allT allT gIdx 0 0
     (by decide) rfl rfl (by decide)⟩
